import Mathlib

/-!
Verification of the carbon-yield pipeline in src/app_streamlit.py.

Embedding conventions: Python floats are embedded as rationals (ℚ);
spreadsheet cells that may be empty (pandas NaN) are embedded as Option
values; the Python round(x, k), which rounds half to even, is embedded as
pyRound k.  Numeric cells that the code reads unconditionally (peak area,
concentration) are embedded as plain rationals.  Division is ℚ division
(total, with q / 0 = 0); the source performs its divisions unchecked, so
no error path exists at a zero denominator in either semantics.
The sheet- and column-locating heuristics are outside the model: rows
arrive with their roles already resolved, and the presence or absence of
the optional compound column is the hasCompound flag.
-/

deriving instance DecidableEq for Except

namespace CarbonOracle

/-- Round half to even on a rational, the semantics of the Python round(x). -/
def rhe (q : ℚ) : ℤ :=
  if q - ⌊q⌋ < 1/2 then ⌊q⌋
  else if 1/2 < q - ⌊q⌋ then ⌊q⌋ + 1
  else if ⌊q⌋ % 2 = 0 then ⌊q⌋ else ⌊q⌋ + 1

/-- Python round(q, k): round to k decimal places, half to even. -/
def pyRound (k : ℕ) (q : ℚ) : ℚ := (rhe (q * 10 ^ k) : ℚ) / 10 ^ k

/-- MOLECULAR_DB (app_streamlit.py lines 16-33): compound name to
(molecular weight, carbon count). -/
def MOLECULAR_DB : List (String × ℚ × ℚ) :=
  [("GALD", 60.05, 2), ("Erythrose", 120.10, 4), ("Threose", 120.10, 4),
   ("Erythrulose", 120.10, 4), ("Glucose", 180.16, 6), ("Sorbose", 180.16, 6),
   ("Tagatose", 180.16, 6), ("Gulose", 180.16, 6), ("Altrose", 180.16, 6),
   ("Allose", 180.16, 6), ("Mannose", 180.16, 6), ("Galactose", 180.16, 6),
   ("Idose", 180.16, 6), ("Fructose", 180.16, 6), ("Psychose", 180.16, 6),
   ("Talose", 180.16, 6)]

/-- First-match association lookup, the semantics of the Python dict.get on
a dict built from distinct keys. -/
def dbLookup (db : List (String × ℚ × ℚ)) (name : String) : Option (ℚ × ℚ) :=
  match db with
  | [] => none
  | p :: ps => if p.1 == name then some p.2 else dbLookup ps name

/-- get_carbon_fraction (lines 35-37): carbon * 12 / mw, with the default
entry mw = 120.10, carbon = 4 for names absent from MOLECULAR_DB. -/
def get_carbon_fraction (name : String) : ℚ :=
  match dbLookup MOLECULAR_DB name with
  | some d => d.2 * 12 / d.1
  | none => 4 * 12 / 120.10

/-- The enumerated C4 sugar names (lines 40 and 317). -/
def c4_sugar_names : List String :=
  ["Erythrose", "Threose", "Erythrulose", "赤藓糖", "苏阿糖", "赤藓酮糖"]

/-- One row of the standard-curve sheet with its roles resolved: compound
cell (possibly empty), peak area, concentration, optional retention time. -/
structure StdRow where
  compound : Option String
  area : ℚ
  conc : ℚ
  rt : Option ℚ
deriving DecidableEq

/-- One row of the reaction-data sheet with its roles resolved. -/
structure RxnRow where
  enzyme : Option String
  compound : Option String
  area : ℚ
  rt : Option ℚ
deriving DecidableEq

/-- One entry of the rt_matches dict built by scan_rt_matches
(lines 54-86). -/
structure RTMatch where
  std_rt : ℚ
  matched_rt : Option ℚ
  deviation : Option ℚ
  is_match : Bool
deriving DecidableEq

/-- Python dict assignment m[k] = v: replace in place if the key exists,
else append. -/
def setAssoc {α : Type} (rs : List (String × α)) (k : String) (v : α) :
    List (String × α) :=
  if rs.any (fun p => p.1 == k) then
    rs.map (fun p => if p.1 == k then (k, v) else p)
  else rs ++ [(k, v)]

/-- In-place update of the value stored under an existing key. -/
def updateAssoc {α : Type} (rs : List (String × α)) (k : String) (f : α → α) :
    List (String × α) :=
  rs.map (fun p => if p.1 == k then (p.1, f p.2) else p)

/-- The reaction retention time closest to srt, first occurrence winning on
ties (np.argmin semantics, lines 73-76). -/
def closestRT (srt : ℚ) (x : ℚ) (xs : List ℚ) : ℚ :=
  xs.foldl (fun best y => if |y - srt| < |best - srt| then y else best) x

/-- The match record scan_rt_matches builds for one standard entry
(lines 69-84): the closest reaction RT, its signed deviation, and whether
the minimal absolute deviation is within tolerance. -/
def scanOne (rts : List ℚ) (tol : ℚ) (srt : ℚ) : RTMatch :=
  match rts with
  | [] => ⟨srt, none, none, false⟩
  | x :: xs =>
    let closest := closestRT srt x xs
    ⟨srt, some (pyRound 6 closest), some (pyRound 6 (closest - srt)),
      decide (|closest - srt| ≤ tol)⟩

/-- scan_rt_matches (lines 54-86): for every standard row carrying both a
compound and a retention time, record the closest reaction-row RT and
whether it is within tolerance, keyed by compound name in insertion
order. -/
def scan_rt_matches (std : List StdRow) (rxn : List RxnRow) (tol : ℚ) :
    List (String × RTMatch) :=
  let stdPairs := std.filterMap (fun r =>
    match r.compound, r.rt with
    | some c, some t => some (c.trim, pyRound 6 t)
    | _, _ => none)
  let rts := rxn.filterMap (fun r => r.rt)
  stdPairs.foldl (fun m p => setAssoc m p.1 (scanOne rts tol p.2)) []

/-- One product entry appended by the parsing loop (lines 295-300). -/
structure Product where
  name : String
  peak : ℚ
  is_predicted : Bool
  rt_deviation : Option ℚ
deriving DecidableEq

/-- The record of one enzyme in the reactions dict: the GALD residual peak
(initialized to 0) and the product list. -/
structure Reaction where
  gald : ℚ
  products : List Product
deriving DecidableEq

/-- State threaded through the row loop: the reactions dict in insertion
order and the current enzyme. -/
structure ParseState where
  reactions : List (String × Reaction)
  current : Option String
deriving DecidableEq

/-- Lines 269-272: a row whose enzyme cell is non-null and non-blank after
stripping becomes the current enzyme and resets its record. -/
def enzymeStep (st : ParseState) (row : RxnRow) : ParseState :=
  match row.enzyme with
  | some e => if e.trim ≠ "" then ⟨setAssoc st.reactions e.trim ⟨0, []⟩, some e.trim⟩ else st
  | none => st

/-- Lines 281-286: the first rt_matches entry whose matched_rt is truthy
and within 0.001 of the RT of the row resolves the row (compound name and
recorded deviation). -/
def resolveRT (rtm : List (String × RTMatch)) (rtv : ℚ) :
    Option (String × Option ℚ) :=
  rtm.findSome? (fun p =>
    match p.2.matched_rt with
    | some mrt => if mrt ≠ 0 ∧ |rtv - mrt| ≤ 0.001 then some (p.1, p.2.deviation) else none
    | none => none)

/-- Lines 274-286: substance resolution for one row.  The compound cell is
read only when the compound column exists; the RT fallback runs only when
the column is absent or the cell is non-null yet strips to the empty
string (the code tests pd.notna there, not isna). -/
def resolveSubstance (hasCompound : Bool) (rtm : List (String × RTMatch))
    (row : RxnRow) : Option String × Bool × Option ℚ :=
  let substance0 : Option String := if hasCompound then row.compound else none
  if (!hasCompound) || (substance0.isSome && (substance0.getD "").trim == "") then
    match row.rt with
    | some rtv =>
      match resolveRT rtm rtv with
      | some cd => (some cd.1, true, cd.2)
      | none => (substance0, false, none)
    | none => (substance0, false, none)
  else (substance0, false, none)

/-- Lines 288-310: a resolved row under an active enzyme contributes.  The
source contains two consecutive near-identical blocks: the first sets the
GALD residual or appends a product, the second sets the GALD residual
again or appends the product a second time unless the name is Unknown. -/
def contribute (st : ParseState) (row : RxnRow)
    (res : Option String × Bool × Option ℚ) : ParseState :=
  match res.1, st.current with
  | some s0, some enz =>
    let s := s0.trim
    let peak := row.area
    let rs := st.reactions
    let rs :=
      if s == "GALD" then updateAssoc rs enz (fun r => ⟨peak, r.products⟩)
      else updateAssoc rs enz
        (fun r => ⟨r.gald, r.products ++ [⟨s, peak, res.2.1, res.2.2⟩]⟩)
    let rs :=
      if s == "GALD" then updateAssoc rs enz (fun r => ⟨peak, r.products⟩)
      else if s != "Unknown" then updateAssoc rs enz
        (fun r => ⟨r.gald, r.products ++ [⟨s, peak, res.2.1, res.2.2⟩]⟩)
      else rs
    ⟨rs, st.current⟩
  | _, _ => st

/-- One iteration of the parsing loop (lines 268-310). -/
def parseStep (hasCompound : Bool) (rtm : List (String × RTMatch))
    (st : ParseState) (row : RxnRow) : ParseState :=
  contribute (enzymeStep st row) row
    (resolveSubstance hasCompound rtm row)

/-- The whole parsing loop: fold over the reaction rows from the empty
dict with no current enzyme. -/
def parseReactions (hasCompound : Bool) (rtm : List (String × RTMatch))
    (rows : List RxnRow) : List (String × Reaction) :=
  (rows.foldl (parseStep hasCompound rtm) ⟨[], none⟩).reactions

/-- The fatal conditions the script can stop with in the modelled region
(st.error followed by st.stop). -/
inductive CalcError where
  | c4StandardMissing
  | galdStandardMissing
  | noReactions
deriving DecidableEq

/-- CalibrationDataMissing covers the two calibration stop conditions. -/
def isCalibrationDataMissing : CalcError → Bool
  | .c4StandardMissing => true
  | .galdStandardMissing => true
  | .noReactions => false

/-- Membership of the raw compound cell in the C4 list (isin semantics:
a null cell is in no list, no stripping, lines 317-318). -/
def isC4row (r : StdRow) : Bool :=
  match r.compound with
  | some c => c4_sugar_names.contains c
  | none => false

/-- Exact equality of the raw compound cell with GALD (line 327). -/
def isGALDrow (r : StdRow) : Bool :=
  match r.compound with
  | some c => c == "GALD"
  | none => false

/-- Calibration (lines 317-334): mean of area/concentration over the C4
subset, then area/concentration of the first GALD row; each subset being
empty is a stop condition, and the divisions are unchecked. -/
def calibrate (rows : List StdRow) : Except CalcError (ℚ × ℚ) :=
  let c4s := rows.filter isC4row
  if c4s.isEmpty then .error .c4StandardMissing
  else
    let c4_response := ((c4s.map (fun r => r.area / r.conc)).sum) / (c4s.length : ℚ)
    match rows.filter isGALDrow with
    | [] => .error .galdStandardMissing
    | g :: _ => .ok (c4_response, g.area / g.conc)

/-- One product line of a result (name, raw peak, unrounded carbon mass),
as appended at line 361. -/
structure ProdResult where
  name : String
  peak : ℚ
  carbon : ℚ
deriving DecidableEq

/-- One element of the results list (lines 366-375); yield_pct and
conversion_pct are stored rounded to 2 places, the carbon masses to 4. -/
structure YieldResult where
  enzyme : String
  yield_pct : ℚ
  conversion_pct : ℚ
  product_carbon : ℚ
  gald_carbon : ℚ
  products : List ProdResult
  gald_peak : ℚ
deriving DecidableEq

/-- The per-product accumulation of lines 356-361. -/
def productStep (c4r : ℚ) (acc : ℚ × List ProdResult) (p : Product) :
    ℚ × List ProdResult :=
  let cf := get_carbon_fraction p.name
  let conc := p.peak / c4r
  let carbon := conc * cf
  (acc.1 + carbon, acc.2 ++ [⟨p.name, p.peak, carbon⟩])

/-- The yield computation for one enzyme (lines 351-375). -/
def computeYield (c4r galdr : ℚ) (enzyme : String) (r : Reaction) : YieldResult :=
  let gald_carbon := (r.gald / galdr) * (2 * 12 / 60.05)
  let acc := r.products.foldl (productStep c4r) (0, [])
  let total := gald_carbon + acc.1
  let yield_pct := if 0 < total then (acc.1 / total) * 100 else 0
  ⟨enzyme, pyRound 2 yield_pct, pyRound 2 (100 - yield_pct),
    pyRound 4 acc.1, pyRound 4 gald_carbon, acc.2, r.gald⟩

/-- Stable insertion keeping the list in descending yield_pct order;
earlier elements win ties, matching the Python stable sort with
reverse=True (line 377). -/
def insertDesc (x : YieldResult) : List YieldResult → List YieldResult
  | [] => [x]
  | y :: ys => if y.yield_pct ≤ x.yield_pct then x :: y :: ys else y :: insertDesc x ys

/-- Stable descending sort by yield_pct. -/
def sortDesc (l : List YieldResult) : List YieldResult :=
  l.foldr insertDesc []

/-- The results list: one YieldResult per reactions-dict entry in
insertion order, then sorted descending by yield_pct. -/
def computeResults (reactions : List (String × Reaction)) (c4r galdr : ℚ) :
    List YieldResult :=
  sortDesc (reactions.map (fun p => computeYield c4r galdr p.1 p.2))

/-- The modelled pipeline in source order (lines 238-377): scan the RT table,
parse the reaction rows, stop if no enzyme record exists, calibrate
(stopping on an empty C4 subset or missing GALD standard), then compute
and sort the results. -/
def runPipeline (std : List StdRow) (rxn : List RxnRow) (hasCompound : Bool) :
    Except CalcError (List YieldResult) :=
  if (parseReactions hasCompound (scan_rt_matches std rxn 0.15) rxn).isEmpty then
    .error .noReactions
  else
    match calibrate std with
    | .error e => .error e
    | .ok p =>
      .ok (computeResults (parseReactions hasCompound (scan_rt_matches std rxn 0.15) rxn)
        p.1 p.2)

/-! ## Helper lemmas about rounding -/

/-- Value of rhe on a rational lying in a known integer window. -/
theorem rhe_eq (q : ℚ) (n : ℤ) (h1 : (n : ℚ) ≤ q) (h2 : q < (n : ℚ) + 1) :
    rhe q = if q - n < 1/2 then n
      else if 1/2 < q - n then n + 1
      else if n % 2 = 0 then n else n + 1 := by
  have hn : ⌊q⌋ = n := by
    rw [Int.floor_eq_iff]
    exact ⟨h1, by exact_mod_cast h2⟩
  unfold rhe
  rw [hn]

/-- Rounding a nonnegative rational is nonnegative. -/
theorem rhe_nonneg (q : ℚ) (h : 0 ≤ q) : 0 ≤ rhe q := by
  have h0 : (0 : ℤ) ≤ ⌊q⌋ := Int.floor_nonneg.mpr h
  unfold rhe
  split_ifs <;> omega

/-- Rounding respects an integer upper bound. -/
theorem rhe_le_int (q : ℚ) (N : ℤ) (h : q ≤ N) : rhe q ≤ N := by
  have h0 : ⌊q⌋ ≤ N := by
    calc ⌊q⌋ ≤ ⌊(N : ℚ)⌋ := Int.floor_le_floor h
    _ = N := Int.floor_intCast N
  have key : (1 : ℚ)/2 ≤ q - ⌊q⌋ → ⌊q⌋ + 1 ≤ N := by
    intro hh
    have h2 : ((⌊q⌋ : ℤ) : ℚ) < (N : ℚ) := by linarith
    have h3 : ⌊q⌋ < N := by exact_mod_cast h2
    omega
  unfold rhe
  split_ifs with h1 h2 h3
  · exact h0
  · exact key (le_of_not_lt h1)
  · exact h0
  · exact key (le_of_not_lt h1)

/-- Complement identity for round half to even: the roundings of q and of
10000 - q always sum to 10000 (the bound is even, so the two half cases
pair off with opposite parities). -/
theorem rhe_compl (q : ℚ) : rhe q + rhe (10000 - q) = 10000 := by
  have hfl : ((⌊q⌋ : ℤ) : ℚ) ≤ q := Int.floor_le q
  have hfu : q < (⌊q⌋ : ℚ) + 1 := Int.lt_floor_add_one q
  have hq := rhe_eq q ⌊q⌋ hfl hfu
  by_cases h0 : q = (⌊q⌋ : ℚ)
  · have hq2 := rhe_eq (10000 - q) (10000 - ⌊q⌋)
      (by push_cast; linarith) (by push_cast; linarith)
    rw [hq, hq2, if_pos (by rw [h0]; simp),
      if_pos (by push_cast; rw [h0]; norm_num)]
    omega
  · have hlt : ((⌊q⌋ : ℤ) : ℚ) < q := lt_of_le_of_ne hfl fun h => h0 h.symm
    have hq2 := rhe_eq (10000 - q) (9999 - ⌊q⌋)
      (by push_cast; linarith) (by push_cast; linarith)
    have hf1 : (10000 - q) - ((9999 - ⌊q⌋ : ℤ) : ℚ) = 1 - (q - ⌊q⌋) := by
      push_cast; ring
    rw [hq, hq2, hf1]
    rcases lt_trichotomy (q - ((⌊q⌋ : ℤ) : ℚ)) (1/2) with hc | hc | hc
    · rw [if_pos hc, if_neg (not_lt.mpr (by linarith)), if_pos (by linarith)]
      omega
    · rw [if_neg (not_lt.mpr (by linarith)), if_neg (not_lt.mpr (by linarith)),
        if_neg (not_lt.mpr (by linarith)), if_neg (not_lt.mpr (by linarith))]
      split_ifs <;> omega
    · rw [if_neg (not_lt.mpr (by linarith)), if_pos hc,
        if_pos (by linarith)]
      omega

/-- Rounding 100 - y to two places equals 100 minus the rounding of y. -/
theorem pyRound2_compl (y : ℚ) : pyRound 2 (100 - y) = 100 - pyRound 2 y := by
  unfold pyRound
  rw [show (100 - y) * 10 ^ 2 = 10000 - y * 10 ^ 2 by ring]
  have h3 : rhe (10000 - y * 10 ^ 2) = 10000 - rhe (y * 10 ^ 2) := by
    have := rhe_compl (y * 10 ^ 2)
    omega
  rw [h3]
  push_cast
  ring

/-- Evaluation rule for pyRound when the scaled value rounds down. -/
theorem pyRound_eval_lo (k : ℕ) (q : ℚ) (n : ℤ) (h1 : (n : ℚ) ≤ q * 10 ^ k)
    (h2 : q * 10 ^ k < (n : ℚ) + 1) (h3 : q * 10 ^ k - n < 1/2) :
    pyRound k q = (n : ℚ) / 10 ^ k := by
  unfold pyRound
  rw [rhe_eq _ n h1 h2, if_pos h3]

/-- pyRound preserves nonnegativity. -/
theorem pyRound_nonneg (k : ℕ) (q : ℚ) (h : 0 ≤ q) : 0 ≤ pyRound k q := by
  unfold pyRound
  apply div_nonneg _ (by positivity)
  exact_mod_cast rhe_nonneg _ (mul_nonneg h (by positivity))

/-- pyRound 2 preserves the bound 100. -/
theorem pyRound2_le_100 (q : ℚ) (h : q ≤ 100) : pyRound 2 q ≤ 100 := by
  unfold pyRound
  rw [div_le_iff₀ (by norm_num : (0 : ℚ) < 10 ^ 2)]
  have hb : rhe (q * 10 ^ 2) ≤ 10000 := rhe_le_int _ 10000 (by push_cast; linarith)
  calc ((rhe (q * 10 ^ 2) : ℤ) : ℚ) ≤ ((10000 : ℤ) : ℚ) := by exact_mod_cast hb
  _ = 100 * 10 ^ 2 := by norm_num

/-! ## Characterization of the yield computation -/

/-- The product fold accumulates the sum of the per-product carbon masses
and the per-product result lines. -/
theorem foldl_productStep (c4r : ℚ) (ps : List Product) (a : ℚ)
    (acc : List ProdResult) :
    ps.foldl (productStep c4r) (a, acc) =
      (a + (ps.map (fun p => p.peak / c4r * get_carbon_fraction p.name)).sum,
       acc ++ ps.map (fun p =>
         (⟨p.name, p.peak, p.peak / c4r * get_carbon_fraction p.name⟩ : ProdResult))) := by
  induction ps generalizing a acc with
  | nil => simp
  | cons p ps ih =>
    simp only [List.foldl_cons, List.map_cons, List.sum_cons]
    rw [show productStep c4r (a, acc) p =
        (a + p.peak / c4r * get_carbon_fraction p.name,
         acc ++ [⟨p.name, p.peak, p.peak / c4r * get_carbon_fraction p.name⟩]) from rfl]
    rw [ih]
    refine Prod.ext ?_ ?_
    · dsimp only
      ring
    · simp

/-- Closed form of computeYield. -/
theorem computeYield_eq (c4r galdr : ℚ) (e : String) (r : Reaction) :
    computeYield c4r galdr e r =
      ⟨e,
       pyRound 2 (if 0 < r.gald / galdr * (2 * 12 / 60.05) +
            (r.products.map (fun p => p.peak / c4r * get_carbon_fraction p.name)).sum
          then (r.products.map (fun p => p.peak / c4r * get_carbon_fraction p.name)).sum /
            (r.gald / galdr * (2 * 12 / 60.05) +
              (r.products.map (fun p => p.peak / c4r * get_carbon_fraction p.name)).sum) * 100
          else 0),
       pyRound 2 (100 - (if 0 < r.gald / galdr * (2 * 12 / 60.05) +
            (r.products.map (fun p => p.peak / c4r * get_carbon_fraction p.name)).sum
          then (r.products.map (fun p => p.peak / c4r * get_carbon_fraction p.name)).sum /
            (r.gald / galdr * (2 * 12 / 60.05) +
              (r.products.map (fun p => p.peak / c4r * get_carbon_fraction p.name)).sum) * 100
          else 0)),
       pyRound 4 (r.products.map (fun p => p.peak / c4r * get_carbon_fraction p.name)).sum,
       pyRound 4 (r.gald / galdr * (2 * 12 / 60.05)),
       r.products.map (fun p =>
         (⟨p.name, p.peak, p.peak / c4r * get_carbon_fraction p.name⟩ : ProdResult)),
       r.gald⟩ := by
  unfold computeYield
  rw [foldl_productStep]
  simp

/-! ## Calibration characterization and positivity -/

/-- Closed form of calibrate when both standard subsets are present. -/
theorem calibrate_spec (rows : List StdRow) (g : StdRow) (gs : List StdRow)
    (h1 : rows.filter isC4row ≠ [])
    (h2 : rows.filter isGALDrow = g :: gs) :
    calibrate rows = .ok
      (((rows.filter isC4row).map (fun r => r.area / r.conc)).sum /
        ((rows.filter isC4row).length : ℚ),
       g.area / g.conc) := by
  unfold calibrate
  rw [h2]
  have he : (rows.filter isC4row).isEmpty = false := by
    cases hfe : rows.filter isC4row with
    | nil => exact absurd hfe h1
    | cons a as => rfl
  simp only [he]
  rfl

/-- The response factors produced by a successful calibration on a valid
standard sheet are positive. -/
theorem calibrate_pos (std : List StdRow)
    (hstd : ∀ r ∈ std, 0 < r.area ∧ 0 < r.conc)
    (p : ℚ × ℚ) (h : calibrate std = .ok p) : 0 < p.1 ∧ 0 < p.2 := by
  cases hfe : std.filter isC4row with
  | nil =>
    unfold calibrate at h
    rw [hfe] at h
    exact absurd h (by simp)
  | cons a as =>
    cases hg : std.filter isGALDrow with
    | nil =>
      unfold calibrate at h
      rw [hfe, hg] at h
      exact absurd h (by simp)
    | cons g gs =>
      rw [calibrate_spec std g gs (by rw [hfe]; simp) hg] at h
      have hp := (Except.ok.injEq _ _).mp h
      rw [← hp]
      constructor
      · apply div_pos
        · apply List.sum_pos
          · intro x hx
            obtain ⟨r, hr, hre⟩ := List.mem_map.mp hx
            obtain ⟨ha, hcnc⟩ := hstd r (List.mem_of_mem_filter hr)
            rw [← hre]
            exact div_pos ha hcnc
          · simp [hfe]
        · rw [hfe]
          exact Nat.cast_pos.mpr (by simp)
      · have hgm : g ∈ std := by
          apply List.mem_of_mem_filter (p := isGALDrow)
          rw [hg]
          exact List.mem_cons_self g gs
        obtain ⟨ha, hcnc⟩ := hstd g hgm
        exact div_pos ha hcnc

/-! ## Carbon fractions are nonnegative -/

/-- A successful dbLookup returns one of the stored entries. -/
theorem dbLookup_mem (db : List (String × ℚ × ℚ)) (name : String)
    (v : ℚ × ℚ) (h : dbLookup db name = some v) : v ∈ db.map Prod.snd := by
  induction db with
  | nil => exact absurd h (by simp [dbLookup])
  | cons p ps ih =>
    rw [dbLookup] at h
    by_cases hb : p.1 == name
    · rw [if_pos hb] at h
      simp only [List.map_cons, List.mem_cons]
      exact Or.inl (Option.some.inj h).symm
    · rw [if_neg hb] at h
      simp only [List.map_cons, List.mem_cons]
      exact Or.inr (ih h)

/-- Every carbon fraction the calculator can use is nonnegative. -/
theorem carbon_fraction_nonneg (name : String) : 0 ≤ get_carbon_fraction name := by
  unfold get_carbon_fraction
  cases hdb : dbLookup MOLECULAR_DB name with
  | none => norm_num
  | some d =>
    have hd : d ∈ MOLECULAR_DB.map Prod.snd := dbLookup_mem _ _ _ hdb
    have hpos : ∀ x ∈ MOLECULAR_DB.map Prod.snd, (0 : ℚ) < x.1 ∧ (0 : ℚ) ≤ x.2 := by
      with_unfolding_all decide
    obtain ⟨h1, h2⟩ := hpos d hd
    exact div_nonneg (mul_nonneg h2 (by norm_num)) h1.le

/-! ## Parser invariant: every stored peak is the area of some row -/

/-- Every enzyme record in the dict has a nonnegative GALD residual and
nonnegative product peaks. -/
def RxnsOK (rs : List (String × Reaction)) : Prop :=
  ∀ p ∈ rs, 0 ≤ p.2.gald ∧ ∀ q ∈ p.2.products, 0 ≤ q.peak

theorem RxnsOK_setAssoc {rs : List (String × Reaction)} {k : String}
    {v : Reaction} (h : RxnsOK rs)
    (hv : 0 ≤ v.gald ∧ ∀ q ∈ v.products, 0 ≤ q.peak) :
    RxnsOK (setAssoc rs k v) := by
  unfold setAssoc
  split_ifs with hb
  · intro p hp
    obtain ⟨p0, hp0, hpe⟩ := List.mem_map.mp hp
    by_cases he : p0.1 == k
    · rw [if_pos he] at hpe
      rw [← hpe]
      exact hv
    · rw [if_neg he] at hpe
      rw [← hpe]
      exact h p0 hp0
  · intro p hp
    rcases List.mem_append.mp hp with h1 | h2
    · exact h p h1
    · rw [List.mem_singleton.mp h2]
      exact hv

theorem RxnsOK_updateAssoc {rs : List (String × Reaction)} {k : String}
    {f : Reaction → Reaction} (h : RxnsOK rs)
    (hf : ∀ a : Reaction, (0 ≤ a.gald ∧ ∀ q ∈ a.products, 0 ≤ q.peak) →
      (0 ≤ (f a).gald ∧ ∀ q ∈ (f a).products, 0 ≤ q.peak)) :
    RxnsOK (updateAssoc rs k f) := by
  intro p hp
  obtain ⟨p0, hp0, hpe⟩ := List.mem_map.mp hp
  by_cases he : p0.1 == k
  · rw [if_pos he] at hpe
    rw [← hpe]
    exact hf p0.2 (h p0 hp0)
  · rw [if_neg he] at hpe
    rw [← hpe]
    exact h p0 hp0

theorem enzymeStep_ok (st : ParseState) (row : RxnRow)
    (h : RxnsOK st.reactions) : RxnsOK (enzymeStep st row).reactions := by
  unfold enzymeStep
  cases row.enzyme with
  | none => exact h
  | some e =>
    dsimp only
    split_ifs with he
    · exact RxnsOK_setAssoc h (by constructor <;> simp)
    · exact h

theorem contribute_ok (st : ParseState) (row : RxnRow)
    (res : Option String × Bool × Option ℚ)
    (h : RxnsOK st.reactions) (ha : 0 ≤ row.area) :
    RxnsOK (contribute st row res).reactions := by
  unfold contribute
  cases hres : res.1 with
  | none =>
    cases st.current <;> exact h
  | some s0 =>
    cases st.current with
    | none => exact h
    | some enz =>
      have hgald : ∀ g : List (String × Reaction), RxnsOK g →
          RxnsOK (updateAssoc g enz fun r => ⟨row.area, r.products⟩) := by
        intro g hg
        exact RxnsOK_updateAssoc hg (fun a hok => ⟨ha, hok.2⟩)
      have happ : ∀ g : List (String × Reaction), RxnsOK g →
          RxnsOK (updateAssoc g enz fun r =>
            ⟨r.gald, r.products ++ [⟨s0.trim, row.area, res.2.1, res.2.2⟩]⟩) := by
        intro g hg
        apply RxnsOK_updateAssoc hg
        intro a hok
        refine ⟨hok.1, ?_⟩
        intro q hq
        rcases List.mem_append.mp hq with h1 | h2
        · exact hok.2 q h1
        · rw [List.mem_singleton.mp h2]
          exact ha
      dsimp only
      split_ifs with h1 h2
      · exact hgald _ (hgald _ h)
      · exact happ _ (happ _ h)
      · exact happ _ h

theorem parse_fold_ok (hc : Bool) (rtm : List (String × RTMatch))
    (rows : List RxnRow) :
    (∀ r ∈ rows, 0 ≤ r.area) → ∀ st : ParseState, RxnsOK st.reactions →
    RxnsOK ((rows.foldl (parseStep hc rtm) st).reactions) := by
  induction rows with
  | nil =>
    intro _ st h
    simpa using h
  | cons r rs ih =>
    intro H st h
    simp only [List.foldl_cons]
    refine ih (fun x hx => H x (List.mem_cons_of_mem _ hx)) _ ?_
    unfold parseStep
    exact contribute_ok _ _ _ (enzymeStep_ok _ _ h) (H r (List.mem_cons_self _ _))

/-- The parsed reactions of a sheet whose areas are nonnegative carry only
nonnegative peaks. -/
theorem parseReactions_ok (hc : Bool) (rtm : List (String × RTMatch))
    (rows : List RxnRow) (H : ∀ r ∈ rows, 0 ≤ r.area) :
    RxnsOK (parseReactions hc rtm rows) := by
  unfold parseReactions
  exact parse_fold_ok hc rtm rows H ⟨[], none⟩ (fun p hp => absurd hp (List.not_mem_nil p))

/-! ## The final sort is a permutation -/

theorem insertDesc_perm (x : YieldResult) (l : List YieldResult) :
    List.Perm (insertDesc x l) (x :: l) := by
  induction l with
  | nil => exact List.Perm.refl _
  | cons y ys ih =>
    unfold insertDesc
    split_ifs with h
    · exact List.Perm.refl _
    · exact (ih.cons y).trans (List.Perm.swap x y ys)

theorem sortDesc_perm (l : List YieldResult) : List.Perm (sortDesc l) l := by
  induction l with
  | nil => exact List.Perm.refl _
  | cons x xs ih => exact (insertDesc_perm x _).trans (ih.cons x)

/-! ## Per-record bounds for the yield computation -/

theorem computeYield_bounds (c4r galdr : ℚ) (e : String) (r : Reaction)
    (h1 : 0 < c4r) (h2 : 0 < galdr) (h3 : 0 ≤ r.gald)
    (h4 : ∀ p ∈ r.products, 0 ≤ p.peak) :
    0 ≤ (computeYield c4r galdr e r).yield_pct ∧
    (computeYield c4r galdr e r).yield_pct ≤ 100 ∧
    (computeYield c4r galdr e r).conversion_pct =
      100 - (computeYield c4r galdr e r).yield_pct ∧
    0 ≤ (computeYield c4r galdr e r).product_carbon ∧
    0 ≤ (computeYield c4r galdr e r).gald_carbon := by
  have hgc : 0 ≤ r.gald / galdr * (2 * 12 / 60.05) :=
    mul_nonneg (div_nonneg h3 h2.le) (by norm_num)
  have htpc : 0 ≤
      (r.products.map (fun p => p.peak / c4r * get_carbon_fraction p.name)).sum := by
    apply List.sum_nonneg
    intro x hx
    obtain ⟨p, hp, hpe⟩ := List.mem_map.mp hx
    rw [← hpe]
    exact mul_nonneg (div_nonneg (h4 p hp) h1.le) (carbon_fraction_nonneg p.name)
  rw [computeYield_eq]
  dsimp only
  set gc := r.gald / galdr * (2 * 12 / 60.05) with hgcd
  set tpc :=
    (r.products.map (fun p => p.peak / c4r * get_carbon_fraction p.name)).sum
    with htpcd
  have hy0 : 0 ≤ (if 0 < gc + tpc then tpc / (gc + tpc) * 100 else 0) := by
    split_ifs with ht
    · exact mul_nonneg (div_nonneg htpc ht.le) (by norm_num)
    · exact le_refl 0
  have hy1 : (if 0 < gc + tpc then tpc / (gc + tpc) * 100 else 0) ≤ 100 := by
    split_ifs with ht
    · have hd : tpc / (gc + tpc) ≤ 1 := (div_le_one ht).mpr (by linarith)
      nlinarith
    · norm_num
  refine ⟨pyRound_nonneg 2 _ hy0, pyRound2_le_100 _ hy1, pyRound2_compl _,
    pyRound_nonneg 4 _ htpc, pyRound_nonneg 4 _ hgc⟩

/-! ## Concrete inputs used to settle individual claims -/

/-- The five-row enzyme-grouping example of spec section 8. -/
def exRows1 : List RxnRow :=
  [⟨some "E1", none, 0, none⟩, ⟨none, some "GALD", 50, none⟩,
   ⟨none, some "Glucose", 200, none⟩, ⟨some "E2", none, 0, none⟩,
   ⟨none, some "GALD", 30, none⟩]

/-- The calibration example of spec section 8: two C4 standards and one
GALD standard. -/
def exStd3 : List StdRow :=
  [⟨some "Erythrose", 100, 10, none⟩, ⟨some "Threose", 200, 20, none⟩,
   ⟨some "GALD", 50, 5, none⟩]

/-- One RT reference at 5.00. -/
def exStd4 : List StdRow := [⟨some "X", 100, 10, some 5⟩]

/-- One enzyme row, then an unlabelled row at RT 5.20 (no compound
column). -/
def exRxn4 : List RxnRow :=
  [⟨some "E1", none, 0, none⟩, ⟨none, none, 100, some (26/5)⟩]

/-- One RT reference at 5.00. -/
def exStd5 : List StdRow := [⟨some "X", 100, 10, some 5⟩]

/-- One enzyme row, then a row with an empty (NaN) compound cell and
RT 5.10, with the compound column present. -/
def exRxn5 : List RxnRow :=
  [⟨some "E1", none, 0, none⟩, ⟨none, none, 100, some (51/10)⟩]

/-- A standard sheet with a C4 row but no GALD row. -/
def exStd6 : List StdRow := [⟨some "Erythrose", 100, 10, none⟩]

/-- A reaction sheet producing one enzyme record. -/
def exRxn6 : List RxnRow :=
  [⟨some "E1", none, 0, none⟩, ⟨none, some "GALD", 30, none⟩]

/-- A valid standard sheet: one C4 standard and one GALD standard, both
factors 10. -/
def exStd7 : List StdRow :=
  [⟨some "Erythrose", 100, 10, none⟩, ⟨some "GALD", 50, 5, none⟩]

/-- A reaction sheet with one enzyme, a GALD residual of 30 and an
unrecognized product of area 60. -/
def exRxn7 : List RxnRow :=
  [⟨some "E1", none, 0, none⟩, ⟨none, some "GALD", 30, none⟩,
   ⟨none, some "Foo", 60, none⟩]

/-- The result the pipeline computes on exStd7/exRxn7 (the product is
appended twice by the duplicated loop block, so the yield is 80). -/
def exYR7 : YieldResult :=
  ⟨"E1", 80, 20, 1199/250, 1199/1000,
   [⟨"Foo", 60, 2880/1201⟩, ⟨"Foo", 60, 2880/1201⟩], 30⟩

/-- A standard sheet whose GALD row has zero concentration. -/
def exStd9 : List StdRow :=
  [⟨some "Erythrose", 100, 10, none⟩, ⟨some "GALD", 50, 0, none⟩]

/-- A reaction sheet with one enzyme and one GALD residual row. -/
def exRxn9 : List RxnRow :=
  [⟨some "E1", none, 0, none⟩, ⟨none, some "GALD", 30, none⟩]

/-- A standard sheet with two GALD rows with different area/concentration
ratios (10 and 30). -/
def exStd10 : List StdRow :=
  [⟨some "Erythrose", 100, 10, none⟩, ⟨some "GALD", 50, 5, none⟩,
   ⟨some "GALD", 90, 3, none⟩]

/-! ## Claims -/

/-- C1: on the section-8 five-row example the parsing loop produces two
enzyme records, but E1 receives TWO identical Glucose product entries,
not one: the loop body (lines 292-310) contains a duplicated append
block, so every row resolved to a compound other than GALD (and other
than Unknown) adds two entries to the product list of the active enzyme, while
a GALD row sets the substrate residual peak as the claim states.  This
theorem evaluates the parser at the claimed example and exhibits the
double append. -/
theorem C1_duplicate_append :
    parseReactions true [] exRows1 =
      [("E1", ⟨50, [⟨"Glucose", 200, false, none⟩, ⟨"Glucose", 200, false, none⟩]⟩),
       ("E2", ⟨30, []⟩)] := by
  with_unfolding_all decide

/-- C3: for every standard sheet with a non-empty C4 subset and a GALD
row, the C4 response factor is the arithmetic mean of area/concentration
over the recognized C4 rows and the GALD response factor is
area/concentration of the (first) GALD row. -/
theorem C3_calibration (rows : List StdRow) (g : StdRow) (gs : List StdRow)
    (h1 : rows.filter isC4row ≠ [])
    (h2 : rows.filter isGALDrow = g :: gs) :
    calibrate rows = .ok
      (((rows.filter isC4row).map (fun r => r.area / r.conc)).sum /
        ((rows.filter isC4row).length : ℚ),
       g.area / g.conc) :=
  calibrate_spec rows g gs h1 h2

/-- C3 witness: on the section-8 example both factors are exactly 10. -/
theorem C3_calibration_witness : calibrate exStd3 = .ok ((10 : ℚ), (10 : ℚ)) := by
  rw [C3_calibration exStd3 ⟨some "GALD", 50, 5, none⟩ []
    (by with_unfolding_all decide) (by with_unfolding_all decide)]
  with_unfolding_all decide

/-- C4: the claim says a reaction row resolves to the nearest reference
compound if and only if the minimal RT deviation is at most 0.15.  The
code computes that tolerance flag only for the diagnostic display
(is_match = false below, deviation 0.20) and then resolves the row
anyway: the parsing loop (lines 281-286) compares the RT of the row against
the matched RT of the scan without consulting is_match, so the sole row at
RT 5.20 is resolved to the reference at RT 5.00 and tagged as predicted.
This theorem evaluates both the scan and the parser at that input. -/
theorem C4_tolerance_not_enforced :
    scan_rt_matches exStd4 exRxn4 0.15 =
      [("X", ⟨5, some (26/5), some (1/5), false⟩)] ∧
    parseReactions false (scan_rt_matches exStd4 exRxn4 0.15) exRxn4 =
      [("E1", ⟨0, [⟨"X", 100, true, some (1/5)⟩, ⟨"X", 100, true, some (1/5)⟩]⟩)] := by
  with_unfolding_all decide

/-- C5: the claim says a row whose compound cell is absent falls back to
RT matching.  The fallback condition of the code (line 278) tests
pd.notna(substance) and strip() == empty, so with the compound column
present a row whose compound cell is empty (NaN) never reaches the RT
matcher and is skipped, even though its RT 5.10 is within tolerance of
the reference at 5.00 (is_match = true below): E1 ends with no products
and no substrate peak. -/
theorem C5_nan_compound_cell_skipped :
    scan_rt_matches exStd5 exRxn5 0.15 =
      [("X", ⟨5, some (51/10), some (1/10), true⟩)] ∧
    parseReactions true (scan_rt_matches exStd5 exRxn5 0.15) exRxn5 =
      [("E1", ⟨0, []⟩)] := by
  with_unfolding_all decide

/-- C9: the claim says a standard row with zero concentration makes the
run fail with a context-carrying error.  The code divides
area/concentration without any check (line 334) and completes the run:
on a standard sheet whose GALD row has concentration 0 the pipeline
returns a YieldResult list (the junk response factor is silently absorbed
and the enzyme is reported with yield 0), and no error condition is
raised. -/
theorem C9_zero_concentration_not_fatal :
    runPipeline exStd9 exRxn9 true = .ok [⟨"E1", 0, 100, 0, 0, [], 30⟩] := by
  with_unfolding_all decide

/-- C10: when the standard sheet contains more than one GALD row, the
GALD response factor is area/concentration of the first such row in sheet
order; the later GALD rows do not influence the result (the conclusion
does not mention gs) and do not make the run fail. -/
theorem C10_gald_first_row_only (rows : List StdRow) (g : StdRow)
    (gs : List StdRow) (h1 : rows.filter isC4row ≠ [])
    (h2 : rows.filter isGALDrow = g :: gs) (_h3 : gs ≠ []) :
    calibrate rows = .ok
      (((rows.filter isC4row).map (fun r => r.area / r.conc)).sum /
        ((rows.filter isC4row).length : ℚ),
       g.area / g.conc) :=
  calibrate_spec rows g gs h1 h2

/-- C10 witness: with GALD rows of ratios 10 and 30, the factor is 10
(first row), not 30 and not the average 20. -/
theorem C10_gald_first_row_only_witness :
    calibrate exStd10 = .ok ((10 : ℚ), (10 : ℚ)) := by
  rw [C10_gald_first_row_only exStd10 ⟨some "GALD", 50, 5, none⟩
    [⟨some "GALD", 90, 3, none⟩] (by with_unfolding_all decide)
    (by with_unfolding_all decide) (by with_unfolding_all decide)]
  with_unfolding_all decide

/-- C2: for every enzyme reaction record and response factors, the stored
substrate carbon mass is (substrate residual peak / GALD response factor)
times 2*12/60.05 (rounded to 4 places for the summary field); every
carbon mass of each product is (peak area / C4 response factor) times its
carbon fraction, where the carbon fraction of any name is looked up in
MOLECULAR_DB and unrecognized names fall back to 4*12/120.10; and the
stored yield percentage is 100 * total product carbon / (total product
carbon + substrate carbon) when that denominator is positive and exactly
0 otherwise (rounded to 2 places for the summary field). -/
theorem C2_yield_calculator (c4r galdr : ℚ) (e : String) (r : Reaction) :
    (computeYield c4r galdr e r).gald_carbon
        = pyRound 4 (r.gald / galdr * (2 * 12 / 60.05))
    ∧ (computeYield c4r galdr e r).products.map ProdResult.carbon
        = r.products.map (fun p => p.peak / c4r * get_carbon_fraction p.name)
    ∧ (∀ name : String, get_carbon_fraction name =
        match dbLookup MOLECULAR_DB name with
        | some d => d.2 * 12 / d.1
        | none => 4 * 12 / 120.10)
    ∧ (computeYield c4r galdr e r).yield_pct =
        pyRound 2 (if 0 <
            (r.products.map (fun p => p.peak / c4r * get_carbon_fraction p.name)).sum
              + r.gald / galdr * (2 * 12 / 60.05)
          then 100 *
            (r.products.map (fun p => p.peak / c4r * get_carbon_fraction p.name)).sum /
            ((r.products.map (fun p => p.peak / c4r * get_carbon_fraction p.name)).sum
              + r.gald / galdr * (2 * 12 / 60.05))
          else 0) := by
  rw [computeYield_eq]
  refine ⟨rfl, by simp, fun _ => rfl, ?_⟩
  dsimp only
  rw [add_comm (r.gald / galdr * (2 * 12 / 60.05))
    (List.sum (r.products.map fun p => p.peak / c4r * get_carbon_fraction p.name))]
  rcases lt_or_ge 0
      ((r.products.map (fun p => p.peak / c4r * get_carbon_fraction p.name)).sum
        + r.gald / galdr * (2 * 12 / 60.05)) with h | h
  · rw [if_pos h, if_pos h]
    congr 1
    ring
  · rw [if_neg (not_lt.mpr h), if_neg (not_lt.mpr h)]

/-- C8: for every result the yield calculator builds, the stored rounded
yield percentage and the stored rounded conversion percentage sum to
exactly 100 (rounding half to even makes the two half cases pair off). -/
theorem C8_yield_conversion_sum (c4r galdr : ℚ) (e : String) (r : Reaction) :
    (computeYield c4r galdr e r).yield_pct +
      (computeYield c4r galdr e r).conversion_pct = 100 := by
  unfold computeYield
  dsimp only
  rw [pyRound2_compl]
  ring

/-- C6 counterexample: an input whose standard sheet has an empty
C4-standard subset (it is empty altogether) but whose reaction sheet
yields no enzyme record stops with NoReactionsFound, not with a
CalibrationDataMissing condition: reaction parsing runs before
calibration in the source. -/
theorem C6_counterexample :
    ([] : List StdRow).filter isC4row = [] ∧
    runPipeline [] [] true = .error CalcError.noReactions ∧
    isCalibrationDataMissing CalcError.noReactions = false := by
  refine ⟨rfl, ?_, rfl⟩
  with_unfolding_all decide

/-- C6 (amended): for every input whose standard sheet has an empty
C4-standard subset or no GALD row, no YieldResult list is ever produced;
and whenever the reaction sheet parses to at least one enzyme record, the
run stops with a CalibrationDataMissing condition. -/
theorem C6_calibration_missing_fatal (std : List StdRow) (rxn : List RxnRow)
    (hc : Bool)
    (h : std.filter isC4row = [] ∨ std.filter isGALDrow = []) :
    (∀ res : List YieldResult, runPipeline std rxn hc ≠ .ok res) ∧
    (parseReactions hc (scan_rt_matches std rxn 0.15) rxn ≠ [] →
      ∃ e, runPipeline std rxn hc = .error e ∧
        isCalibrationDataMissing e = true) := by
  obtain ⟨e, he, hm⟩ : ∃ e, calibrate std = .error e ∧
      isCalibrationDataMissing e = true := by
    rcases h with h | h
    · refine ⟨.c4StandardMissing, ?_, rfl⟩
      unfold calibrate
      rw [h]
      rfl
    · by_cases hc4 : std.filter isC4row = []
      · refine ⟨.c4StandardMissing, ?_, rfl⟩
        unfold calibrate
        rw [hc4]
        rfl
      · refine ⟨.galdStandardMissing, ?_, rfl⟩
        unfold calibrate
        rw [h]
        have hfe : (std.filter isC4row).isEmpty = false := by
          cases hx : std.filter isC4row with
          | nil => exact absurd hx hc4
          | cons a as => rfl
        simp only [hfe]
        rfl
  constructor
  · intro res hres
    unfold runPipeline at hres
    by_cases hr : (parseReactions hc (scan_rt_matches std rxn 0.15) rxn).isEmpty
    · rw [if_pos hr] at hres
      exact Except.noConfusion hres
    · rw [if_neg hr, he] at hres
      exact Except.noConfusion hres
  · intro hne
    have hr : (parseReactions hc (scan_rt_matches std rxn 0.15) rxn).isEmpty = false := by
      cases hx : parseReactions hc (scan_rt_matches std rxn 0.15) rxn with
      | nil => exact absurd hx hne
      | cons a as => rfl
    refine ⟨e, ?_, hm⟩
    unfold runPipeline
    rw [if_neg (by simp [hr]), he]

/-- C6 witness: on a standard sheet lacking a GALD row and a reaction
sheet with one enzyme record, the run produces no result list and stops
with a CalibrationDataMissing condition. -/
theorem C6_calibration_missing_fatal_witness :
    (∀ res : List YieldResult, runPipeline exStd6 exRxn6 true ≠ .ok res) ∧
    (parseReactions true (scan_rt_matches exStd6 exRxn6 0.15) exRxn6 ≠ [] →
      ∃ e, runPipeline exStd6 exRxn6 true = .error e ∧
        isCalibrationDataMissing e = true) :=
  C6_calibration_missing_fatal exStd6 exRxn6 true
    (Or.inr (by with_unfolding_all decide))

/-- C7: every YieldResult the pipeline produces from a valid input (all
standard areas and concentrations positive, all reaction areas
nonnegative) has its stored yield percentage in [0, 100], its stored
conversion percentage equal to 100 minus the yield percentage, and
nonnegative stored product and substrate carbon masses. -/
theorem C7_range_invariant (std : List StdRow) (rxn : List RxnRow) (hc : Bool)
    (hstd : ∀ r ∈ std, 0 < r.area ∧ 0 < r.conc)
    (hrxn : ∀ r ∈ rxn, 0 ≤ r.area)
    (results : List YieldResult) (hok : runPipeline std rxn hc = .ok results)
    (yr : YieldResult) (hyr : yr ∈ results) :
    0 ≤ yr.yield_pct ∧ yr.yield_pct ≤ 100 ∧
    yr.conversion_pct = 100 - yr.yield_pct ∧
    0 ≤ yr.product_carbon ∧ 0 ≤ yr.gald_carbon := by
  unfold runPipeline at hok
  by_cases hre : (parseReactions hc (scan_rt_matches std rxn 0.15) rxn).isEmpty
  · rw [if_pos hre] at hok
    exact Except.noConfusion hok
  · rw [if_neg hre] at hok
    cases hcal : calibrate std with
    | error e =>
      rw [hcal] at hok
      exact Except.noConfusion hok
    | ok p =>
      rw [hcal] at hok
      have hres : results =
          computeResults (parseReactions hc (scan_rt_matches std rxn 0.15) rxn)
            p.1 p.2 := by
        injection hok with h
        exact h.symm
      obtain ⟨hp1, hp2⟩ := calibrate_pos std hstd p hcal
      subst hres
      unfold computeResults at hyr
      have hmem := (sortDesc_perm _).mem_iff.mp hyr
      obtain ⟨q, hq, hqe⟩ := List.mem_map.mp hmem
      obtain ⟨hg, hps⟩ := parseReactions_ok hc (scan_rt_matches std rxn 0.15)
        rxn hrxn q hq
      rw [← hqe]
      exact computeYield_bounds p.1 p.2 q.1 q.2 hp1 hp2 hg hps

set_option maxRecDepth 2000 in
/-- C7 witness: on the valid example input, the stored result has yield 80,
conversion 20 and nonnegative carbon masses. -/
theorem C7_range_invariant_witness :
    0 ≤ exYR7.yield_pct ∧ exYR7.yield_pct ≤ 100 ∧
    exYR7.conversion_pct = 100 - exYR7.yield_pct ∧
    0 ≤ exYR7.product_carbon ∧ 0 ≤ exYR7.gald_carbon := by
  have hcf : get_carbon_fraction "Foo" = 480/1201 := by with_unfolding_all decide
  have hcy : computeYield 10 10 "E1"
      ⟨30, [⟨"Foo", 60, false, none⟩, ⟨"Foo", 60, false, none⟩]⟩ = exYR7 := by
    rw [computeYield_eq]
    simp only [List.map_cons, List.map_nil, List.sum_cons, List.sum_nil, hcf]
    rw [if_pos (by norm_num)]
    unfold exYR7
    rw [show ((60 : ℚ)/10 * (480/1201) + (60/10 * (480/1201) + 0)) /
        ((30 : ℚ)/10 * (2 * 12 / 60.05) + (60/10 * (480/1201) + (60/10 * (480/1201) + 0)))
        * 100 = 80 by norm_num]
    rw [show (100 : ℚ) - 80 = 20 by norm_num]
    rw [show ((60 : ℚ)/10 * (480/1201) + (60/10 * (480/1201) + 0)) = 5760/1201 by norm_num]
    rw [show ((30 : ℚ)/10 * (2 * 12 / 60.05)) = 1440/1201 by norm_num]
    rw [pyRound_eval_lo 2 80 8000 (by norm_num) (by norm_num) (by norm_num)]
    rw [pyRound_eval_lo 2 20 2000 (by norm_num) (by norm_num) (by norm_num)]
    rw [pyRound_eval_lo 4 (5760/1201) 47960 (by norm_num) (by norm_num) (by norm_num)]
    rw [pyRound_eval_lo 4 (1440/1201) 11990 (by norm_num) (by norm_num) (by norm_num)]
    norm_num
  have hparse : parseReactions true (scan_rt_matches exStd7 exRxn7 0.15) exRxn7 =
      [("E1", ⟨30, [⟨"Foo", 60, false, none⟩, ⟨"Foo", 60, false, none⟩]⟩)] := by
    with_unfolding_all decide
  have hcal : calibrate exStd7 = .ok (10, 10) := by with_unfolding_all decide
  have hok : runPipeline exStd7 exRxn7 true = .ok [exYR7] := by
    unfold runPipeline
    rw [hparse, hcal, ← hcy]
    rfl
  exact C7_range_invariant exStd7 exRxn7 true
    (by
      intro r hr
      simp only [exStd7, List.mem_cons, List.not_mem_nil, or_false] at hr
      rcases hr with rfl | rfl <;> exact ⟨by norm_num, by norm_num⟩)
    (by
      intro r hr
      simp only [exRxn7, List.mem_cons, List.not_mem_nil, or_false] at hr
      rcases hr with rfl | rfl | rfl <;> norm_num)
    [exYR7] hok exYR7 (List.mem_singleton.mpr rfl)

end CarbonOracle
